import Mathlib

/-!
# Verification of the broadcast execution engine

A shallow embedding of `app/services/broadcast_service.py`: the job store
row (`BroadcastHistory`), the status-update helpers, the batched send loop
of `BroadcastService._send_batched`, the orchestration of
`BroadcastService._run_broadcast`, the per-recipient retry loop
`send_single`, the task registry (`start_broadcast` / `request_stop` /
`is_running`), and the cabinet route `stop_broadcast`.

External effects (the Telegram transport, the database, the event loop)
are modelled by explicit oracles: per-recipient send outcomes, the
cancellation flag as observed at each cooperative checkpoint, the event
loop clock at each checkpoint, and the failure mode of each progress
write.  Sleeps advance an explicit rational clock.
-/

namespace Broadcast

/-- `_TG_BATCH_SIZE = 25`. -/
def tgBatchSize : Nat := 25

/-- `_TG_MAX_RETRIES = 3`. -/
def tgMaxRetries : Nat := 3

/-- `_PROGRESS_UPDATE_MESSAGES = 500`. -/
def progressUpdateMessages : Nat := 500

/-- `_PROGRESS_MIN_INTERVAL_SEC = 5.0`. -/
def progressMinIntervalSec : ℚ := 5

/-- The status strings the system stores in `BroadcastHistory.status`. -/
inductive BStatus where
  | queued
  | inProgress
  | completed
  | partialDone
  | failed
  | cancelled
  | cancelling
deriving DecidableEq, Repr

/-- The slice of a `BroadcastHistory` row that the engine reads and writes:
status, `total_count`, `sent_count`, `failed_count`, and whether
`completed_at` has been set. -/
structure StoreRow where
  status : BStatus
  totalCount : Nat
  sentCount : Nat
  failedCount : Nat
  completedAtSet : Bool
deriving DecidableEq, Repr

/-- One successful pass of `_safe_status_update`: overwrites the counters and
the status, and sets `completed_at` when `update_completed_at` is true. -/
def safeStatusUpdate (row : StoreRow) (sent failed : Nat) (status : BStatus)
    (updateCompletedAt : Bool) : StoreRow :=
  { row with
    sentCount := sent
    failedCount := failed
    status := status
    completedAtSet := row.completedAtSet || updateCompletedAt }

/-- `_mark_finished`: terminal write, status chosen from the cancelled flag and
the failed counter. -/
def markFinished (row : StoreRow) (sent failed : Nat) (cancelled : Bool) : StoreRow :=
  safeStatusUpdate row sent failed
    (if cancelled then .cancelled else if failed = 0 then .completed else .partialDone) true

/-- `_mark_cancelled`. -/
def markCancelled (row : StoreRow) (sent failed : Nat) : StoreRow :=
  markFinished row sent failed true

/-- `_mark_failed`. -/
def markFailed (row : StoreRow) (sent failed : Nat) : StoreRow :=
  safeStatusUpdate row sent failed .failed true

/-- `_update_progress`: in-progress write, `completed_at` untouched. -/
def updateProgress (row : StoreRow) (sent failed : Nat) : StoreRow :=
  safeStatusUpdate row sent failed .inProgress false

/-- One element of the list `asyncio.gather(..., return_exceptions=True)`
returns in `_send_batched`: `send_single` returned `True`, returned `False`,
or an exception object surfaced. -/
inductive GatherRes where
  | sentOk
  | sendFail
  | exn
deriving DecidableEq, Repr

/-- A result that the counting loop books as failed (`False` or an
exception); there is no third branch, nothing is skipped. -/
def isFailRes : GatherRes → Bool
  | .sentOk => false
  | .sendFail => true
  | .exn => true

/-- The `for result in results` counting loop of `_send_batched`. -/
def countResults (rs : List GatherRes) (sent failed : Nat) : Nat × Nat :=
  rs.foldl
    (fun acc r =>
      match r with
      | .sentOk => (acc.1 + 1, acc.2)
      | .sendFail => (acc.1, acc.2 + 1)
      | .exn => (acc.1, acc.2 + 1))
    (sent, failed)

theorem countResults_sum (rs : List GatherRes) (s f : Nat) :
    (countResults rs s f).1 + (countResults rs s f).2 = s + f + rs.length := by
  induction rs generalizing s f with
  | nil => rfl
  | cons r rs ih =>
    cases r
    · have h : countResults (GatherRes.sentOk :: rs) s f = countResults rs (s + 1) f := rfl
      rw [h, ih, List.length_cons]; omega
    · have h : countResults (GatherRes.sendFail :: rs) s f = countResults rs s (f + 1) := rfl
      rw [h, ih, List.length_cons]; omega
    · have h : countResults (GatherRes.exn :: rs) s f = countResults rs s (f + 1) := rfl
      rw [h, ih, List.length_cons]; omega

theorem countResults_failed (rs : List GatherRes) (s f : Nat) :
    (countResults rs s f).2 = f + rs.countP isFailRes := by
  induction rs generalizing s f with
  | nil => rfl
  | cons r rs ih =>
    cases r
    · have h : countResults (GatherRes.sentOk :: rs) s f = countResults rs (s + 1) f := rfl
      rw [h, ih]; simp [List.countP_cons, isFailRes]
    · have h : countResults (GatherRes.sendFail :: rs) s f = countResults rs s (f + 1) := rfl
      rw [h, ih]; simp [List.countP_cons, isFailRes]; omega
    · have h : countResults (GatherRes.exn :: rs) s f = countResults rs s (f + 1) := rfl
      rw [h, ih]; simp [List.countP_cons, isFailRes]; omega

/-- Failure mode of one `_safe_status_update` progress write: it commits, it
is swallowed (`SQLAlchemyError`, or `InterfaceError` retries exhausted), or
an exception not handled inside `_safe_status_update` escapes. -/
inductive PFail where
  | ok
  | skip
  | raise
deriving DecidableEq, Repr

/-- How the `_send_batched` loop ended: the recipient list was exhausted, the
cancellation flag was observed at a batch boundary (the cancelled row was
already written), or an exception escaped the loop. -/
inductive BOut where
  | finished (sent failed : Nat)
  | cancelledAt (sent failed : Nat)
  | raised (sent failed : Nat)
deriving DecidableEq, Repr

/-- The counters carried by a loop outcome. -/
def outSum : BOut → Nat
  | .finished s f => s + f
  | .cancelledAt s f => s + f
  | .raised s f => s + f

/-- Oracles that close `_send_batched` over its environment: the boolean
each recipient's `send_single` coroutine resolves to, the cancellation flag
as observed at the top-of-loop check of batch `j`, the event-loop clock at
batch `j`'s progress checkpoint, and the failure mode of batch `j`'s
progress write. -/
structure BatchEnv where
  resOf : Nat → GatherRes
  cancelB : Nat → Bool
  batchNow : Nat → ℚ
  progressFail : Nat → PFail

/-- The loop `for i in range(0, len(recipient_ids), _TG_BATCH_SIZE)` of
`_send_batched`, recursing on the unprocessed suffix of the recipient list
(fuel bounds the recursion; any fuel `≥ rem.length` is exact).  Returns the
rows persisted during the loop, the last persisted row (the input row when
nothing was written), and the outcome. -/
def sendBatchedAux (env : BatchEnv) :
    Nat → Nat → List Nat → Nat → Nat → Nat → ℚ → StoreRow →
      List StoreRow × StoreRow × BOut
  | _, _, [], s, f, _, _, row => ([], row, .finished s f)
  | 0, _, _ :: _, s, f, _, _, row => ([], row, .finished s f)
  | fuel + 1, j, t :: ts, s, f, lastCnt, lastT, row =>
    if env.cancelB j then
      -- cancellation observed before launching the batch: persist and stop
      let row' := markCancelled row s f
      ([row'], row', .cancelledAt s f)
    else
      let s' := (countResults ((t :: ts).take tgBatchSize |>.map env.resOf) s f).1
      let f' := (countResults ((t :: ts).take tgBatchSize |>.map env.resOf) s f).2
      let processed := s' + f'
      let now := env.batchNow j
      if processed - lastCnt ≥ progressUpdateMessages ∨ now - lastT ≥ progressMinIntervalSec then
        match env.progressFail j with
        | .raise => ([], row, .raised s' f')
        | .skip =>
          sendBatchedAux env fuel (j + 1) ((t :: ts).drop tgBatchSize) s' f' processed now row
        | .ok =>
          let row' := updateProgress row s' f'
          let rest :=
            sendBatchedAux env fuel (j + 1) ((t :: ts).drop tgBatchSize) s' f' processed now row'
          (row' :: rest.1, rest.2)
      else
        sendBatchedAux env fuel (j + 1) ((t :: ts).drop tgBatchSize) s' f' lastCnt lastT row

/-- Everything `_run_broadcast` depends on: the row as created by the caller,
the snapshot `_fetch_recipients` returns, the cancellation flag at the two
pre-loop checkpoints, whether recipient resolution raises, and the batch
loop oracles. -/
structure RunParams where
  initRow : StoreRow
  recips : List Nat
  cancel1 : Bool
  cancel2 : Bool
  fetchFails : Bool
  env : BatchEnv

/-- `BroadcastService._run_broadcast`: the sequence of store-row states it
persists (head = the row as created), paired with the final persisted row. -/
def runBroadcast (p : RunParams) : List StoreRow × StoreRow :=
  let r0 := p.initRow
  if p.cancel1 then
    -- cancel_event already set on entry
    let rc := markCancelled r0 0 0
    ([r0, rc], rc)
  else
    -- status = 'in_progress', counters reset; total_count untouched here
    let r1 := { r0 with status := BStatus.inProgress, sentCount := 0, failedCount := 0 }
    if p.fetchFails then
      -- resolver raised: `except Exception` → _mark_failed(id, 0, 0)
      let rf := markFailed r1 0 0
      ([r0, r1, rf], rf)
    else
      let n := p.recips.length
      let r2 := { r1 with totalCount := n }
      if p.cancel2 then
        let rc := markCancelled r2 0 0
        ([r0, r1, r2, rc], rc)
      else if n = 0 then
        let rc := markFinished r2 0 0 false
        ([r0, r1, r2, rc], rc)
      else
        let res := sendBatchedAux p.env n 0 p.recips 0 0 0 0 r2
        match res.2.2 with
        | .cancelledAt _ _ => ([r0, r1, r2] ++ res.1, res.2.1)
        | .raised _ _ =>
          -- the exception reaches `except Exception` in _run_broadcast, whose
          -- local sent_count/failed_count are still 0
          let rf := markFailed res.2.1 0 0
          ([r0, r1, r2] ++ res.1 ++ [rf], rf)
        | .finished s f =>
          let rt := markFinished res.2.1 s f false
          ([r0, r1, r2] ++ res.1 ++ [rt], rt)

/-- Invariants of the batch loop: every row it persists keeps `total_count`
unchanged, carries counters bounded by the input counters plus the number of
unprocessed recipients, and has status `in_progress` or `cancelled`; the
last persisted row keeps `total_count`; the outcome's counters obey the same
bound; and a cancelled outcome's counters are the ones in the last persisted
row, whose status is `cancelled`. -/
theorem sendBatchedAux_inv (env : BatchEnv) (fuel : Nat) :
    ∀ (j : Nat) (rem : List Nat) (s f lastCnt : Nat) (lastT : ℚ) (row : StoreRow),
      (∀ r ∈ (sendBatchedAux env fuel j rem s f lastCnt lastT row).1,
          r.totalCount = row.totalCount ∧
          r.sentCount + r.failedCount ≤ s + f + rem.length ∧
          (r.status = BStatus.inProgress ∨ r.status = BStatus.cancelled)) ∧
      (sendBatchedAux env fuel j rem s f lastCnt lastT row).2.1.totalCount = row.totalCount ∧
      outSum (sendBatchedAux env fuel j rem s f lastCnt lastT row).2.2 ≤ s + f + rem.length ∧
      (∀ a b, (sendBatchedAux env fuel j rem s f lastCnt lastT row).2.2 = BOut.cancelledAt a b →
        (sendBatchedAux env fuel j rem s f lastCnt lastT row).2.1.status = BStatus.cancelled ∧
        (sendBatchedAux env fuel j rem s f lastCnt lastT row).2.1.sentCount = a ∧
        (sendBatchedAux env fuel j rem s f lastCnt lastT row).2.1.failedCount = b) := by
  induction fuel with
  | zero =>
    intro j rem s f lastCnt lastT row
    cases rem <;> simp [sendBatchedAux, outSum]
  | succ fuel ih =>
    intro j rem s f lastCnt lastT row
    cases rem with
    | nil => simp [sendBatchedAux, outSum]
    | cons t ts =>
      by_cases hc : env.cancelB j
      · simp [sendBatchedAux, hc, outSum, markCancelled, markFinished, safeStatusUpdate]
      · have hsum := countResults_sum (((t :: ts).take tgBatchSize).map env.resOf) s f
        have hlen2 : (((t :: ts).take tgBatchSize).map env.resOf).length ≤ ts.length + 1 := by
          simp [List.length_take]
        have hdl : ((t :: ts).drop tgBatchSize).length +
            (((t :: ts).take tgBatchSize).map env.resOf).length = ts.length + 1 := by
          simp [List.length_take, List.length_drop]
          omega
        simp only [sendBatchedAux, hc, Bool.false_eq_true, if_false]
        rcases hcr : countResults (((t :: ts).take tgBatchSize).map env.resOf) s f with ⟨s', f'⟩
        rw [hcr] at hsum
        simp only at hsum
        dsimp only
        have hle : s' + f' ≤ s + f + (ts.length + 1) := by omega
        by_cases hthr :
            s' + f' - lastCnt ≥ progressUpdateMessages ∨
              env.batchNow j - lastT ≥ progressMinIntervalSec
        · rw [if_pos hthr]
          cases hpf : env.progressFail j with
          | raise =>
            refine ⟨by simp, rfl, ?_, by simp⟩
            simp only [outSum, List.length_cons]
            omega
          | skip =>
            have h := ih (j + 1) ((t :: ts).drop tgBatchSize) s' f' (s' + f')
              (env.batchNow j) row
            simp only [List.length_cons]
            refine ⟨fun r hr => ?_, h.2.1, ?_, h.2.2.2⟩
            · obtain ⟨h1, h2, h3⟩ := h.1 r hr
              exact ⟨h1, by omega, h3⟩
            · have := h.2.2.1; omega
          | ok =>
            have h := ih (j + 1) ((t :: ts).drop tgBatchSize) s' f' (s' + f')
              (env.batchNow j) (updateProgress row s' f')
            have htot : (updateProgress row s' f').totalCount = row.totalCount := rfl
            simp only [List.length_cons]
            refine ⟨fun r hr => ?_, by rw [h.2.1, htot], ?_, ?_⟩
            · rcases List.mem_cons.mp hr with h0 | h0
              · subst h0
                exact ⟨rfl, by simpa [updateProgress, safeStatusUpdate] using hle, Or.inl rfl⟩
              · obtain ⟨h1, h2, h3⟩ := h.1 r h0
                exact ⟨by rw [h1, htot], by omega, h3⟩
            · have := h.2.2.1; omega
            · intro a b hab
              exact h.2.2.2 a b hab
        · rw [if_neg hthr]
          have h := ih (j + 1) ((t :: ts).drop tgBatchSize) s' f' lastCnt lastT row
          simp only [List.length_cons]
          refine ⟨fun r hr => ?_, h.2.1, ?_, h.2.2.2⟩
          · obtain ⟨h1, h2, h3⟩ := h.1 r hr
            exact ⟨h1, by omega, h3⟩
          · have := h.2.2.1; omega

/-- When no batch-boundary check observes the cancellation flag and no
progress write raises, the loop consumes the whole recipient list and
returns `finished` counters summing to the inputs plus the number of
remaining recipients. -/
theorem sendBatchedAux_finished (env : BatchEnv)
    (hcan : ∀ k, env.cancelB k = false) (hpf : ∀ k, env.progressFail k ≠ PFail.raise)
    (fuel : Nat) :
    ∀ (j : Nat) (rem : List Nat) (s f lastCnt : Nat) (lastT : ℚ) (row : StoreRow),
      rem.length ≤ fuel →
      ∃ s' f',
        (sendBatchedAux env fuel j rem s f lastCnt lastT row).2.2 = BOut.finished s' f' ∧
          s' + f' = s + f + rem.length := by
  induction fuel with
  | zero =>
    intro j rem s f lastCnt lastT row hflen
    have hnil : rem = [] := List.length_eq_zero.mp (Nat.le_zero.mp hflen)
    subst hnil
    exact ⟨s, f, rfl, by simp⟩
  | succ fuel ih =>
    intro j rem s f lastCnt lastT row hflen
    cases rem with
    | nil => exact ⟨s, f, rfl, by simp⟩
    | cons t ts =>
      have hbs : tgBatchSize = 25 := rfl
      have hsum := countResults_sum (((t :: ts).take tgBatchSize).map env.resOf) s f
      have hdl : ((t :: ts).drop tgBatchSize).length +
          (((t :: ts).take tgBatchSize).map env.resOf).length = ts.length + 1 := by
        simp [List.length_take, List.length_drop]
        omega
      have hflen' : ((t :: ts).drop tgBatchSize).length ≤ fuel := by
        simp only [List.length_cons] at hflen
        simp [List.length_drop]
        omega
      simp only [sendBatchedAux, hcan j, Bool.false_eq_true, if_false]
      rcases hcr : countResults (((t :: ts).take tgBatchSize).map env.resOf) s f with ⟨s', f'⟩
      rw [hcr] at hsum
      simp only at hsum
      dsimp only
      by_cases hthr :
          s' + f' - lastCnt ≥ progressUpdateMessages ∨
            env.batchNow j - lastT ≥ progressMinIntervalSec
      · rw [if_pos hthr]
        cases hpfj : env.progressFail j with
        | raise => exact absurd hpfj (hpf j)
        | skip =>
          obtain ⟨s'', f'', h1, h2⟩ := ih (j + 1) ((t :: ts).drop tgBatchSize) s' f' (s' + f')
            (env.batchNow j) row hflen'
          refine ⟨s'', f'', h1, ?_⟩
          rw [h2]
          simp only [List.length_cons]
          omega
        | ok =>
          obtain ⟨s'', f'', h1, h2⟩ := ih (j + 1) ((t :: ts).drop tgBatchSize) s' f' (s' + f')
            (env.batchNow j) (updateProgress row s' f') hflen'
          refine ⟨s'', f'', h1, ?_⟩
          rw [h2]
          simp only [List.length_cons]
          omega
      · rw [if_neg hthr]
        obtain ⟨s'', f'', h1, h2⟩ := ih (j + 1) ((t :: ts).drop tgBatchSize) s' f' lastCnt
          lastT row hflen'
        refine ⟨s'', f'', h1, ?_⟩
        rw [h2]
        simp only [List.length_cons]
        omega

/-- When the cancellation flag is first observed at the top-of-loop check of
batch `j₀` (counting from the current batch index `j`), and batch `j₀` was
going to exist, the loop ends `cancelledAt` with counters summing to the
inputs plus exactly `tgBatchSize * j₀`: precisely the recipients of the
fully completed batches. -/
theorem sendBatchedAux_cancelled (env : BatchEnv)
    (hpf : ∀ k, env.progressFail k ≠ PFail.raise) :
    ∀ (j0 j : Nat) (rem : List Nat) (s f lastCnt : Nat) (lastT : ℚ) (row : StoreRow)
      (fuel : Nat),
      rem.length ≤ fuel →
      (∀ m, m < j0 → env.cancelB (j + m) = false) →
      env.cancelB (j + j0) = true →
      tgBatchSize * j0 < rem.length →
      ∃ s' f',
        (sendBatchedAux env fuel j rem s f lastCnt lastT row).2.2 = BOut.cancelledAt s' f' ∧
          s' + f' = s + f + tgBatchSize * j0 := by
  intro j0
  induction j0 with
  | zero =>
    intro j rem s f lastCnt lastT row fuel hflen hprev hc0 hlen
    cases rem with
    | nil => simp at hlen
    | cons t ts =>
      cases fuel with
      | zero => exact absurd hflen (by simp)
      | succ fuel =>
        have hcj : env.cancelB j = true := by simpa using hc0
        refine ⟨s, f, ?_, by simp⟩
        simp [sendBatchedAux, hcj]
  | succ j0 ih =>
    intro j rem s f lastCnt lastT row fuel hflen hprev hc0 hlen
    have hbs : tgBatchSize = 25 := rfl
    cases rem with
    | nil => simp at hlen
    | cons t ts =>
      cases fuel with
      | zero => exact absurd hflen (by simp)
      | succ fuel =>
        have hcj : env.cancelB j = false := by simpa using hprev 0 (Nat.succ_pos _)
        have hsum := countResults_sum (((t :: ts).take tgBatchSize).map env.resOf) s f
        have htkl : (((t :: ts).take tgBatchSize).map env.resOf).length = tgBatchSize := by
          rw [hbs] at hlen ⊢
          simp only [List.length_cons] at hlen
          simp [List.length_take]
          omega
        have hflen' : ((t :: ts).drop tgBatchSize).length ≤ fuel := by
          simp only [List.length_cons] at hflen
          simp [List.length_drop]
          omega
        have hlen' : tgBatchSize * j0 < ((t :: ts).drop tgBatchSize).length := by
          rw [hbs] at hlen ⊢
          simp only [List.length_drop, List.length_cons] at hlen ⊢
          omega
        have hprev' : ∀ m, m < j0 → env.cancelB (j + 1 + m) = false := by
          intro m hm
          have := hprev (m + 1) (by omega)
          rwa [show j + (m + 1) = j + 1 + m by omega] at this
        have hc0' : env.cancelB (j + 1 + j0) = true := by
          rwa [show j + (j0 + 1) = j + 1 + j0 by omega] at hc0
        simp only [sendBatchedAux, hcj, Bool.false_eq_true, if_false]
        rcases hcr : countResults (((t :: ts).take tgBatchSize).map env.resOf) s f with ⟨s', f'⟩
        rw [hcr] at hsum
        simp only at hsum
        dsimp only
        by_cases hthr :
            s' + f' - lastCnt ≥ progressUpdateMessages ∨
              env.batchNow j - lastT ≥ progressMinIntervalSec
        · rw [if_pos hthr]
          cases hpfj : env.progressFail j with
          | raise => exact absurd hpfj (hpf j)
          | skip =>
            obtain ⟨s'', f'', h1, h2⟩ := ih (j + 1) ((t :: ts).drop tgBatchSize) s' f'
              (s' + f') (env.batchNow j) row fuel hflen' hprev' hc0' hlen'
            exact ⟨s'', f'', h1, by rw [h2, hbs] at *; omega⟩
          | ok =>
            obtain ⟨s'', f'', h1, h2⟩ := ih (j + 1) ((t :: ts).drop tgBatchSize) s' f'
              (s' + f') (env.batchNow j) (updateProgress row s' f') fuel hflen' hprev' hc0' hlen'
            exact ⟨s'', f'', h1, by rw [h2, hbs] at *; omega⟩
        · rw [if_neg hthr]
          obtain ⟨s'', f'', h1, h2⟩ := ih (j + 1) ((t :: ts).drop tgBatchSize) s' f'
            lastCnt lastT row fuel hflen' hprev' hc0' hlen'
          exact ⟨s'', f'', h1, by rw [h2, hbs] at *; omega⟩

/-- All store-row states the run persists, oldest first. -/
def runTrace (p : RunParams) : List StoreRow :=
  (runBroadcast p).1

/-- The last store-row state the run persists. -/
def finalRow (p : RunParams) : StoreRow :=
  (runBroadcast p).2

/-- C1: at every persisted point during and after a run, the counters obey
`sent + failed ≤ total`, and never exceed the size of the recipient snapshot
taken once at job start. -/
theorem claim_C1 (p : RunParams)
    (h0 : p.initRow.sentCount = 0) (h1 : p.initRow.failedCount = 0) :
    ∀ r ∈ runTrace p,
      r.sentCount + r.failedCount ≤ r.totalCount ∧
        r.sentCount + r.failedCount ≤ p.recips.length := by
  intro r hr
  unfold runTrace runBroadcast at hr
  by_cases hc1 : p.cancel1
  · simp [hc1] at hr
    rcases hr with h | h <;> subst h
    · exact ⟨by omega, by omega⟩
    · simp [markCancelled, markFinished, safeStatusUpdate]
  · by_cases hff : p.fetchFails
    · simp [hc1, hff] at hr
      rcases hr with h | h | h <;> subst h
      · exact ⟨by omega, by omega⟩
      · simp
      · simp [markFailed, safeStatusUpdate]
    · by_cases hc2 : p.cancel2
      · simp [hc1, hff, hc2] at hr
        rcases hr with h | h | h | h <;> subst h
        · exact ⟨by omega, by omega⟩
        · simp
        · simp
        · simp [markCancelled, markFinished, safeStatusUpdate]
      · by_cases hn : p.recips.length = 0
        · simp [hc1, hff, hc2, hn] at hr
          rcases hr with h | h | h | h <;> subst h
          · exact ⟨by omega, by omega⟩
          · simp
          · simp
          · simp [markFinished, safeStatusUpdate]
        · simp only [hc1, hff, hc2, hn, Bool.false_eq_true, if_false, ite_false] at hr
          have inv := sendBatchedAux_inv p.env p.recips.length 0 p.recips 0 0 0 0
            { p.initRow with
              status := BStatus.inProgress, sentCount := 0, failedCount := 0,
              totalCount := p.recips.length }
          set r2 : StoreRow :=
            { p.initRow with
              status := BStatus.inProgress, sentCount := 0, failedCount := 0,
              totalCount := p.recips.length } with hr2
          set res := sendBatchedAux p.env p.recips.length 0 p.recips 0 0 0 0 r2 with hres
          have htot2 : r2.totalCount = p.recips.length := rfl
          rcases hout : res.2.2 with ⟨a, b⟩ | ⟨a, b⟩ | ⟨a, b⟩
          · -- finished
            rw [hout] at hr
            simp only [List.append_eq, List.mem_append, List.mem_cons,
              List.not_mem_nil, or_false] at hr
            rcases hr with ((h | h | h) | h) | h
            · subst h; exact ⟨by omega, by omega⟩
            · subst h; simp
            · subst h; simp
            · obtain ⟨ht, hb, _⟩ := inv.1 r h
              rw [htot2] at ht
              exact ⟨by omega, by omega⟩
            · subst h
              have hsum : outSum res.2.2 ≤ 0 + 0 + p.recips.length := inv.2.2.1
              rw [hout] at hsum
              simp only [outSum] at hsum
              have ht : res.2.1.totalCount = p.recips.length := by rw [inv.2.1, htot2]
              refine ⟨?_, ?_⟩ <;>
                simp [markFinished, safeStatusUpdate, ht] <;> omega
          · -- cancelledAt
            rw [hout] at hr
            simp only [List.append_eq, List.mem_append, List.mem_cons,
              List.not_mem_nil, or_false] at hr
            rcases hr with (h | h | h) | h
            · subst h; exact ⟨by omega, by omega⟩
            · subst h; simp
            · subst h; simp
            · obtain ⟨ht, hb, _⟩ := inv.1 r h
              rw [htot2] at ht
              exact ⟨by omega, by omega⟩
          · -- raised
            rw [hout] at hr
            simp only [List.append_eq, List.mem_append, List.mem_cons,
              List.not_mem_nil, or_false] at hr
            rcases hr with ((h | h | h) | h) | h
            · subst h; exact ⟨by omega, by omega⟩
            · subst h; simp
            · subst h; simp
            · obtain ⟨ht, hb, _⟩ := inv.1 r h
              rw [htot2] at ht
              exact ⟨by omega, by omega⟩
            · subst h
              simp [markFailed, safeStatusUpdate]

/-- C2: a stop observed before any batch starts ends the run `cancelled`
with `sent = 0, failed = 0` (and, when the stop is observed after the
snapshot was taken, `total` equal to the snapshot size); a stop first
observed at the top-of-loop check of batch `j₀` ends the run `cancelled`
with `sent + failed` exactly the recipients of the `j₀` fully completed
batches (e.g. `tgBatchSize * 2 = 50` after two batches of 25). -/
theorem claim_C2 (p : RunParams) :
    (p.cancel1 = true →
      (finalRow p).status = BStatus.cancelled ∧ (finalRow p).sentCount = 0 ∧
        (finalRow p).failedCount = 0) ∧
    (p.cancel1 = false → p.fetchFails = false → p.cancel2 = true →
      (finalRow p).status = BStatus.cancelled ∧ (finalRow p).sentCount = 0 ∧
        (finalRow p).failedCount = 0 ∧ (finalRow p).totalCount = p.recips.length) ∧
    (∀ j0, p.cancel1 = false → p.fetchFails = false → p.cancel2 = false →
      (∀ k, p.env.progressFail k ≠ PFail.raise) →
      (∀ m, m < j0 → p.env.cancelB m = false) → p.env.cancelB j0 = true →
      tgBatchSize * j0 < p.recips.length →
      (finalRow p).status = BStatus.cancelled ∧
        (finalRow p).sentCount + (finalRow p).failedCount = tgBatchSize * j0 ∧
        (finalRow p).totalCount = p.recips.length) := by
  refine ⟨?_, ?_, ?_⟩
  · intro hc1
    unfold finalRow runBroadcast
    simp [hc1, markCancelled, markFinished, safeStatusUpdate]
  · intro hc1 hff hc2
    unfold finalRow runBroadcast
    simp [hc1, hff, hc2, markCancelled, markFinished, safeStatusUpdate]
  · intro j0 hc1 hff hc2 hpf hprev hc0 hlen
    have hn : ¬p.recips.length = 0 := by
      intro h
      rw [h] at hlen
      exact Nat.not_lt_zero _ hlen
    have inv := sendBatchedAux_inv p.env p.recips.length 0 p.recips 0 0 0 0
      { p.initRow with
        status := BStatus.inProgress, sentCount := 0, failedCount := 0,
        totalCount := p.recips.length }
    obtain ⟨a, b, hout, hsum⟩ := sendBatchedAux_cancelled p.env hpf j0 0 p.recips 0 0 0 0
      { p.initRow with
        status := BStatus.inProgress, sentCount := 0, failedCount := 0,
        totalCount := p.recips.length }
      p.recips.length le_rfl (by simpa using hprev) (by simpa using hc0) hlen
    unfold finalRow runBroadcast
    simp only [hc1, hff, hc2, hn, Bool.false_eq_true, if_false, ite_false]
    rw [hout]
    obtain ⟨hst, hsent, hfail⟩ := inv.2.2.2 a b hout
    have htot := inv.2.1
    exact ⟨hst, by rw [hsent, hfail]; omega, htot⟩

/-- C3: when every batch is processed with no cancellation and no escaping
store error, the terminal status is `completed` exactly when the failed
counter is zero and `partial` otherwise, the counters exhaust the snapshot,
and an empty audience ends `completed` with `total = sent = failed = 0`. -/
theorem claim_C3 (p : RunParams)
    (hc1 : p.cancel1 = false) (hff : p.fetchFails = false) (hc2 : p.cancel2 = false)
    (hcan : ∀ k, p.env.cancelB k = false) (hpf : ∀ k, p.env.progressFail k ≠ PFail.raise) :
    (finalRow p).status =
        (if (finalRow p).failedCount = 0 then BStatus.completed else BStatus.partialDone) ∧
      (finalRow p).sentCount + (finalRow p).failedCount = p.recips.length ∧
      (finalRow p).totalCount = p.recips.length ∧
      (p.recips = [] →
        (finalRow p).status = BStatus.completed ∧ (finalRow p).totalCount = 0 ∧
          (finalRow p).sentCount = 0 ∧ (finalRow p).failedCount = 0) := by
  by_cases hn : p.recips.length = 0
  · have hnil : p.recips = [] := List.length_eq_zero.mp hn
    unfold finalRow runBroadcast
    simp [hc1, hff, hc2, hn, hnil, markFinished, safeStatusUpdate]
  · have inv := sendBatchedAux_inv p.env p.recips.length 0 p.recips 0 0 0 0
      { p.initRow with
        status := BStatus.inProgress, sentCount := 0, failedCount := 0,
        totalCount := p.recips.length }
    obtain ⟨s', f', hout, hsum⟩ := sendBatchedAux_finished p.env hcan hpf
      p.recips.length 0 p.recips 0 0 0 0
      { p.initRow with
        status := BStatus.inProgress, sentCount := 0, failedCount := 0,
        totalCount := p.recips.length }
      le_rfl
    have htot := inv.2.1
    unfold finalRow runBroadcast
    simp only [hc1, hff, hc2, hn, Bool.false_eq_true, if_false, ite_false]
    rw [hout]
    refine ⟨?_, ?_, ?_, ?_⟩
    · simp [markFinished, safeStatusUpdate]
    · simp only [markFinished, safeStatusUpdate]
      omega
    · simp only [markFinished, safeStatusUpdate]
      exact htot
    · intro h
      exact absurd (by rw [h]; rfl) hn

/-- A `BroadcastHistory` row as the create endpoint writes it:
`status='queued'`, `total_count=0`, `sent_count=0`, `failed_count=0`. -/
def freshRow : StoreRow :=
  { status := BStatus.queued, totalCount := 0, sentCount := 0, failedCount := 0,
    completedAtSet := false }

/-- The in-memory registry `BroadcastService._tasks`: job id ↦ the `done`
flag of the registered task.  The done callback (`task.add_done_callback`)
pops the entry, so task completion and the pop are modelled as one atomic
transition. -/
def Registry : Type := Nat → Option Bool

/-- A registry with no running task. -/
def emptyRegistry : Registry := fun _ => none

/-- `BroadcastService.is_running`: an entry exists and its task is not done. -/
def isRunningReg (reg : Registry) (bid : Nat) : Bool :=
  match reg bid with
  | some d => !d
  | none => false

/-- What a call to `start_broadcast` did: synchronously marked the row
failed (transport missing), warned and returned (job already running), or
registered a fresh task. -/
inductive StartAction where
  | markedFailed
  | noop
  | spawned
deriving DecidableEq, Repr

/-- `BroadcastService.start_broadcast` up to task registration: the
bot-not-initialized guard (`_mark_failed`), the already-running check, and
the insertion of the new task entry. -/
def startBroadcastM (botSet : Bool) (reg : Registry) (row : StoreRow) (bid : Nat) :
    Registry × StoreRow × StartAction :=
  if botSet = false then (reg, markFailed row 0 0, .markedFailed)
  else
    match reg bid with
    | some d =>
      if d = false then (reg, row, .noop)
      else (fun x => if x = bid then some false else reg x, row, .spawned)
    | none => (fun x => if x = bid then some false else reg x, row, .spawned)

/-- `EmailBroadcastService.start_broadcast` up to task registration: the
service-not-set guard, the `is_configured()` guard, then the same
already-running check and registration. -/
def startEmailBroadcastM (svcSet configured : Bool) (reg : Registry) (row : StoreRow)
    (bid : Nat) : Registry × StoreRow × StartAction :=
  if svcSet = false then (reg, markFailed row 0 0, .markedFailed)
  else if configured = false then (reg, markFailed row 0 0, .markedFailed)
  else
    match reg bid with
    | some d =>
      if d = false then (reg, row, .noop)
      else (fun x => if x = bid then some false else reg x, row, .spawned)
    | none => (fun x => if x = bid then some false else reg x, row, .spawned)

/-- How the background task ended. -/
inductive TaskOutcome where
  | finishedOk
  | finishedExn
  | finishedCancelled
deriving DecidableEq, Repr

/-- Task completion plus its done callback
`lambda _: self._tasks.pop(broadcast_id, None)`: the entry is removed
whatever the outcome was. -/
def finishTask (reg : Registry) (bid : Nat) (_o : TaskOutcome) : Registry :=
  fun x => if x = bid then none else reg x

/-- C7: starting a job id that is still running is a no-op (nothing spawned,
registry unchanged); the completion callback removes the entry regardless of
outcome, after which `is_running` is false; and a start that spawned leaves
`is_running` true until then. -/
theorem claim_C7 (reg : Registry) (bid : Nat) (row : StoreRow)
    (hrun : isRunningReg reg bid = true) :
    startBroadcastM true reg row bid = (reg, row, StartAction.noop) ∧
      (∀ o : TaskOutcome, isRunningReg (finishTask reg bid o) bid = false) ∧
      (∀ (reg' : Registry) (row' : StoreRow) (bid' : Nat),
        (startBroadcastM true reg' row' bid').2.2 = StartAction.spawned →
        isRunningReg (startBroadcastM true reg' row' bid').1 bid' = true) := by
  refine ⟨?_, ?_, ?_⟩
  · unfold startBroadcastM
    unfold isRunningReg at hrun
    cases h : reg bid with
    | none => rw [h] at hrun; simp at hrun
    | some d =>
      rw [h] at hrun
      simp only [Bool.not_eq_true'] at hrun
      simp [h, hrun]
  · intro o
    simp [isRunningReg, finishTask]
  · intro reg' row' bid' hsp
    cases h : reg' bid' with
    | none => simp [startBroadcastM, h, isRunningReg]
    | some d =>
      cases d
      · simp [startBroadcastM, h] at hsp
      · simp [startBroadcastM, h, isRunningReg]

/-- C9: with the transport unset, `start_broadcast` immediately writes
`failed` with `sent = 0, failed = 0`, registers nothing, and `is_running`
is unchanged (so never becomes true); likewise for the email service
variant when the service is unset or unconfigured. -/
theorem claim_C9 (reg : Registry) (row : StoreRow) (bid : Nat) :
    ((startBroadcastM false reg row bid).1 = reg ∧
      (startBroadcastM false reg row bid).2.1.status = BStatus.failed ∧
      (startBroadcastM false reg row bid).2.1.sentCount = 0 ∧
      (startBroadcastM false reg row bid).2.1.failedCount = 0 ∧
      (startBroadcastM false reg row bid).2.2 = StartAction.markedFailed ∧
      isRunningReg (startBroadcastM false reg row bid).1 bid = isRunningReg reg bid) ∧
    (∀ svcSet configured : Bool, svcSet = false ∨ configured = false →
      (startEmailBroadcastM svcSet configured reg row bid).1 = reg ∧
      (startEmailBroadcastM svcSet configured reg row bid).2.1.status = BStatus.failed ∧
      (startEmailBroadcastM svcSet configured reg row bid).2.1.sentCount = 0 ∧
      (startEmailBroadcastM svcSet configured reg row bid).2.1.failedCount = 0 ∧
      isRunningReg (startEmailBroadcastM svcSet configured reg row bid).1 bid =
        isRunningReg reg bid) := by
  constructor
  · simp [startBroadcastM, markFailed, safeStatusUpdate]
  · intro svcSet configured hcfg
    rcases hcfg with h | h <;> subst h
    · simp [startEmailBroadcastM, markFailed, safeStatusUpdate]
    · cases svcSet <;> simp [startEmailBroadcastM, markFailed, safeStatusUpdate]

/-- Result of the cabinet route `POST /broadcasts/{id}/stop`. -/
inductive StopOutcome where
  | notFound
  | badState
  | updated (row : StoreRow)
deriving DecidableEq, Repr

/-- The cabinet route `stop_broadcast` in `admin_broadcasts.py`: 404 when no
row, 400 unless the stored status is queued/in_progress/cancelling,
otherwise `request_stop` is asked; if a run was found the row is committed
with status `cancelling`, else with status `cancelled` and `completed_at`
set. -/
def stopBroadcastRoute (row? : Option StoreRow) (isRun : Bool) : StopOutcome :=
  match row? with
  | none => .notFound
  | some row =>
    if row.status = BStatus.queued ∨ row.status = BStatus.inProgress ∨
        row.status = BStatus.cancelling then
      if isRun then .updated { row with status := BStatus.cancelling }
      else .updated { row with status := BStatus.cancelled, completedAtSet := true }
    else .badState

/-- C8 counterexample: the claim that `cancelling` is never persisted to the
store is false — the stop route commits a row whose stored status is
`cancelling` whenever it finds the job running. -/
theorem claim_C8_counterexample :
    ¬ ∀ (row : StoreRow) (isRun : Bool) (r' : StoreRow),
        stopBroadcastRoute (some row) isRun = StopOutcome.updated r' →
        r'.status ≠ BStatus.cancelling := by
  intro h
  exact h { status := BStatus.inProgress, totalCount := 10, sentCount := 3,
            failedCount := 1, completedAtSet := false } true
    { status := BStatus.cancelling, totalCount := 10, sentCount := 3,
      failedCount := 1, completedAtSet := false } (by decide) rfl

/-- C8 amended: the engine itself never persists `cancelling` — every row a
run writes has one of the six statuses queued/in_progress/completed/
partial/failed/cancelled — but the stop route does persist `cancelling`
whenever a stop is requested while the job is running. -/
theorem claim_C8_amended (p : RunParams) (hq : p.initRow.status = BStatus.queued) :
    (∀ r ∈ runTrace p, r.status ≠ BStatus.cancelling) ∧
      (∀ row : StoreRow, row.status = BStatus.inProgress →
        stopBroadcastRoute (some row) true =
          StopOutcome.updated { row with status := BStatus.cancelling }) := by
  constructor
  · intro r hr
    unfold runTrace runBroadcast at hr
    by_cases hc1 : p.cancel1
    · simp [hc1] at hr
      rcases hr with h | h <;> subst h
      · rw [hq]; decide
      · simp [markCancelled, markFinished, safeStatusUpdate]
    · by_cases hff : p.fetchFails
      · simp [hc1, hff] at hr
        rcases hr with h | h | h <;> subst h
        · rw [hq]; decide
        · simp
        · simp [markFailed, safeStatusUpdate]
      · by_cases hc2 : p.cancel2
        · simp [hc1, hff, hc2] at hr
          rcases hr with h | h | h | h <;> subst h
          · rw [hq]; decide
          · simp
          · simp
          · simp [markCancelled, markFinished, safeStatusUpdate]
        · by_cases hn : p.recips.length = 0
          · simp [hc1, hff, hc2, hn] at hr
            rcases hr with h | h | h | h <;> subst h
            · rw [hq]; decide
            · simp
            · simp
            · simp [markFinished, safeStatusUpdate]
          · simp only [hc1, hff, hc2, hn, Bool.false_eq_true, if_false, ite_false] at hr
            have inv := sendBatchedAux_inv p.env p.recips.length 0 p.recips 0 0 0 0
              { p.initRow with
                status := BStatus.inProgress, sentCount := 0, failedCount := 0,
                totalCount := p.recips.length }
            set r2 : StoreRow :=
              { p.initRow with
                status := BStatus.inProgress, sentCount := 0, failedCount := 0,
                totalCount := p.recips.length } with hr2
            set res := sendBatchedAux p.env p.recips.length 0 p.recips 0 0 0 0 r2 with hres
            rcases hout : res.2.2 with ⟨a, b⟩ | ⟨a, b⟩ | ⟨a, b⟩
            · rw [hout] at hr
              simp only [List.append_eq, List.mem_append, List.mem_cons,
                List.not_mem_nil, or_false] at hr
              rcases hr with ((h | h | h) | h) | h
              · subst h; rw [hq]; decide
              · subst h; simp
              · subst h; simp
              · obtain ⟨_, _, hst⟩ := inv.1 r h
                rcases hst with h1 | h1 <;> rw [h1] <;> decide
              · subst h
                simp only [markFinished, safeStatusUpdate]
                split <;> simp_all <;> split <;> simp
            · rw [hout] at hr
              simp only [List.append_eq, List.mem_append, List.mem_cons,
                List.not_mem_nil, or_false] at hr
              rcases hr with (h | h | h) | h
              · subst h; rw [hq]; decide
              · subst h; simp
              · subst h; simp
              · obtain ⟨_, _, hst⟩ := inv.1 r h
                rcases hst with h1 | h1 <;> rw [h1] <;> decide
            · rw [hout] at hr
              simp only [List.append_eq, List.mem_append, List.mem_cons,
                List.not_mem_nil, or_false] at hr
              rcases hr with ((h | h | h) | h) | h
              · subst h; rw [hq]; decide
              · subst h; simp
              · subst h; simp
              · obtain ⟨_, _, hst⟩ := inv.1 r h
                rcases hst with h1 | h1 <;> rw [h1] <;> decide
              · subst h; simp [markFailed, safeStatusUpdate]
  · intro row h
    simp [stopBroadcastRoute, h]

/-- What one `await self._deliver_message(...)` does, as distinguished by the
`except` clauses of `send_single`: success, `TelegramRetryAfter` carrying
`retry_after = w` seconds, `TelegramForbiddenError`, `TelegramBadRequest`,
or any other exception. -/
inductive TgOutcome where
  | ok
  | retryAfter (w : Nat)
  | forbidden
  | badRequest
  | genericErr
deriving DecidableEq, Repr

/-- The observable events of one `send_single` call: the cooldown sleep
(`flood_wait_until - now`), a delivery attempt (0-based index), the
post-throttle sleep (`retry_after + 1`), and the generic-error backoff
sleep (`0.5 * (attempt + 1)`). -/
inductive SendEv where
  | coolSleep (d : ℚ)
  | attempt (a : Nat)
  | floodSleep (d : ℚ)
  | backSleep (d : ℚ)
deriving DecidableEq, Repr

/-- The event-loop clock and the shared `flood_wait_until` as `send_single`
sees them.  Sleeps advance the clock; deliveries are instantaneous. -/
structure SendSt where
  clock : ℚ
  flood : ℚ
deriving DecidableEq, Repr

/-- The loop `for attempt in range(_TG_MAX_RETRIES)` of `send_single`:
`fuel` counts the remaining iterations (attempt index
`tgMaxRetries - fuel`).  `out a` is what the delivery at attempt `a` does,
`cancel a` whether `cancel_event.is_set()` at attempt `a`'s check.  Returns
the events, the boolean `send_single` returns, and the final state. -/
def sendSingleGo (out : Nat → TgOutcome) (cancel : Nat → Bool) :
    Nat → SendSt → List SendEv × Bool × SendSt
  | 0, st => ([], false, st)
  | fuel + 1, st =>
    let a := tgMaxRetries - (fuel + 1)
    let pre : List SendEv × SendSt :=
      if st.flood > st.clock then
        ([SendEv.coolSleep (st.flood - st.clock)], { st with clock := st.flood })
      else ([], st)
    if cancel a then (pre.1, false, pre.2)
    else
      match out a with
      | .ok => (pre.1 ++ [SendEv.attempt a], true, pre.2)
      | .forbidden => (pre.1 ++ [SendEv.attempt a], false, pre.2)
      | .badRequest => (pre.1 ++ [SendEv.attempt a], false, pre.2)
      | .retryAfter w =>
        let wq : ℚ := (w : ℚ) + 1
        let st' : SendSt := { clock := pre.2.clock + wq, flood := pre.2.clock + wq }
        let rest := sendSingleGo out cancel fuel st'
        (pre.1 ++ SendEv.attempt a :: SendEv.floodSleep wq :: rest.1, rest.2)
      | .genericErr =>
        if fuel = 0 then (pre.1 ++ [SendEv.attempt a], false, pre.2)
        else
          let d : ℚ := ((a : ℚ) + 1) / 2
          let st' : SendSt := { pre.2 with clock := pre.2.clock + d }
          let rest := sendSingleGo out cancel fuel st'
          (pre.1 ++ SendEv.attempt a :: SendEv.backSleep d :: rest.1, rest.2)

/-- `send_single`, run with its full retry budget. -/
def sendSingle (out : Nat → TgOutcome) (cancel : Nat → Bool) (st : SendSt) :
    List SendEv × Bool × SendSt :=
  sendSingleGo out cancel tgMaxRetries st

theorem sendSingleGo_succ (out : Nat → TgOutcome) (cancel : Nat → Bool) (fuel : Nat)
    (st : SendSt) :
    sendSingleGo out cancel (fuel + 1) st =
      (let a := tgMaxRetries - (fuel + 1)
       let pre : List SendEv × SendSt :=
         if st.flood > st.clock then
           ([SendEv.coolSleep (st.flood - st.clock)], { st with clock := st.flood })
         else ([], st)
       if cancel a then (pre.1, false, pre.2)
       else
         match out a with
         | .ok => (pre.1 ++ [SendEv.attempt a], true, pre.2)
         | .forbidden => (pre.1 ++ [SendEv.attempt a], false, pre.2)
         | .badRequest => (pre.1 ++ [SendEv.attempt a], false, pre.2)
         | .retryAfter w =>
           let wq : ℚ := (w : ℚ) + 1
           let st' : SendSt := { clock := pre.2.clock + wq, flood := pre.2.clock + wq }
           let rest := sendSingleGo out cancel fuel st'
           (pre.1 ++ SendEv.attempt a :: SendEv.floodSleep wq :: rest.1, rest.2)
         | .genericErr =>
           if fuel = 0 then (pre.1 ++ [SendEv.attempt a], false, pre.2)
           else
             let d : ℚ := ((a : ℚ) + 1) / 2
             let st' : SendSt := { pre.2 with clock := pre.2.clock + d }
             let rest := sendSingleGo out cancel fuel st'
             (pre.1 ++ SendEv.attempt a :: SendEv.backSleep d :: rest.1, rest.2)) := rfl

/-- Events that are delivery attempts. -/
def isAttemptEv : SendEv → Bool
  | .attempt _ => true
  | _ => false

/-- Number of delivery attempts among the events. -/
def numAttempts (evs : List SendEv) : Nat :=
  (evs.filter isAttemptEv).length

theorem sendSingleGo_attempts_le (out : Nat → TgOutcome) (cancel : Nat → Bool) :
    ∀ (fuel : Nat) (st : SendSt),
      numAttempts (sendSingleGo out cancel fuel st).1 ≤ fuel := by
  intro fuel
  induction fuel with
  | zero => intro st; simp [sendSingleGo, numAttempts]
  | succ fuel ih =>
    intro st
    unfold sendSingleGo
    set a := tgMaxRetries - (fuel + 1) with ha
    by_cases hfl : st.flood > st.clock
    · rw [if_pos hfl]
      by_cases hcl : cancel a
      · simp [hcl, numAttempts, isAttemptEv]
      · simp only [hcl, Bool.false_eq_true, if_false]
        cases hout : out a <;>
          simp [numAttempts, isAttemptEv, List.filter_append, List.filter] <;>
          first
            | omega
            | (rename_i w
               have := ih { clock := st.flood + ((w : ℚ) + 1), flood := st.flood + ((w : ℚ) + 1) }
               simp [numAttempts] at this
               omega)
            | (by_cases hfz : fuel = 0
               · simp [hfz, numAttempts, isAttemptEv, List.filter_cons, List.filter_append]
               · simp only [hfz, Bool.false_eq_true, if_false]
                 have := ih { clock := st.flood + ((a : ℚ) + 1) / 2, flood := st.flood }
                 simp [numAttempts, isAttemptEv, List.filter_cons, List.filter_append] at this ⊢
                 omega)
    · rw [if_neg hfl]
      by_cases hcl : cancel a
      · simp [hcl, numAttempts, isAttemptEv]
      · simp only [hcl, Bool.false_eq_true, if_false]
        cases hout : out a <;>
          simp [numAttempts, isAttemptEv, List.filter_append, List.filter] <;>
          first
            | omega
            | (rename_i w
               have := ih { clock := st.clock + ((w : ℚ) + 1), flood := st.clock + ((w : ℚ) + 1) }
               simp [numAttempts] at this
               omega)
            | (by_cases hfz : fuel = 0
               · simp [hfz, numAttempts, isAttemptEv, List.filter_cons, List.filter_append]
               · simp only [hfz, Bool.false_eq_true, if_false]
                 have := ih { clock := st.clock + ((a : ℚ) + 1) / 2, flood := st.flood }
                 simp [numAttempts, isAttemptEv, List.filter_cons, List.filter_append] at this ⊢
                 omega)

/-- The single email send `send_single_email`: under the semaphore it checks
the cancel flag (returning `None`, later not counted), then makes exactly
one SMTP attempt, mapping any exception to `False`.  The pair is the
returned value and the number of attempts made. -/
inductive EmailRes where
  | sentRes (b : Bool)
  | raisedExn
deriving DecidableEq, Repr

def sendSingleEmail (cancelled : Bool) (res : EmailRes) : Option Bool × Nat :=
  if cancelled then (none, 0)
  else
    match res with
    | .sentRes b => (some b, 1)
    | .raisedExn => (some false, 1)

/-- C4: a recipient is attempted at most `tgMaxRetries = 3` times; three
generic transient failures exhaust the budget with linearly increasing
backoff sleeps (0.5 s then 1.0 s) and the recipient counted failed; a
permanent reject (`TelegramForbiddenError`) or malformed request
(`TelegramBadRequest`) on the first attempt fails immediately after exactly
one attempt and no sleep; the email sender makes at most one attempt and
maps an exception straight to a failure. -/
theorem claim_C4 :
    (∀ (out : Nat → TgOutcome) (cancel : Nat → Bool) (st : SendSt),
      numAttempts (sendSingle out cancel st).1 ≤ tgMaxRetries) ∧
    (sendSingle (fun _ => TgOutcome.genericErr) (fun _ => false) { clock := 0, flood := 0 } =
      ([SendEv.attempt 0, SendEv.backSleep (1 / 2), SendEv.attempt 1, SendEv.backSleep 1,
        SendEv.attempt 2], false, { clock := 3 / 2, flood := 0 })) ∧
    (∀ (out : Nat → TgOutcome) (cancel : Nat → Bool) (st : SendSt),
      out 0 = TgOutcome.forbidden → cancel 0 = false → st.flood ≤ st.clock →
      sendSingle out cancel st = ([SendEv.attempt 0], false, st)) ∧
    (∀ (out : Nat → TgOutcome) (cancel : Nat → Bool) (st : SendSt),
      out 0 = TgOutcome.badRequest → cancel 0 = false → st.flood ≤ st.clock →
      sendSingle out cancel st = ([SendEv.attempt 0], false, st)) ∧
    (∀ (c : Bool) (r : EmailRes), (sendSingleEmail c r).2 ≤ 1) ∧
    sendSingleEmail false EmailRes.raisedExn = (some false, 1) := by
  refine ⟨?_, ?_, ?_, ?_, ?_, rfl⟩
  · intro out cancel st
    exact sendSingleGo_attempts_le out cancel tgMaxRetries st
  · show sendSingleGo _ _ (2 + 1) _ = _
    rw [sendSingleGo_succ]
    norm_num [tgMaxRetries]
    rw [show (2 : Nat) = 1 + 1 from rfl, sendSingleGo_succ]
    norm_num [tgMaxRetries]
    rw [show (1 : Nat) = 0 + 1 from rfl, sendSingleGo_succ]
    norm_num [tgMaxRetries]
  · intro out cancel st h0 hc hfl
    have hnl : ¬st.flood > st.clock := not_lt.mpr hfl
    show sendSingleGo out cancel (2 + 1) st = ([SendEv.attempt 0], false, st)
    rw [sendSingleGo_succ]
    dsimp only
    simp only [show tgMaxRetries - (2 + 1) = 0 from rfl, hc, Bool.false_eq_true, if_false, h0]
    rw [if_neg hnl]
    simp
  · intro out cancel st h0 hc hfl
    have hnl : ¬st.flood > st.clock := not_lt.mpr hfl
    show sendSingleGo out cancel (2 + 1) st = ([SendEv.attempt 0], false, st)
    rw [sendSingleGo_succ]
    dsimp only
    simp only [show tgMaxRetries - (2 + 1) = 0 from rfl, hc, Bool.false_eq_true, if_false, h0]
    rw [if_neg hnl]
    simp
  · intro c r
    cases c <;> cases r <;> simp [sendSingleEmail]

/-- C10: in the message channel, a recipient whose `send_single` observes
the cancellation flag before any delivery attempt returns `False` with zero
attempts made; the counting loop books every non-`True` result — including
such never-attempted recipients — as failed (never skipped), so after a
mid-batch cancellation `failed` can include recipients that were never
attempted: `sent + failed` always covers the whole gathered batch. -/
theorem claim_C10 :
    (∀ (out : Nat → TgOutcome) (st : SendSt),
      (sendSingle out (fun _ => true) st).2.1 = false ∧
        numAttempts (sendSingle out (fun _ => true) st).1 = 0) ∧
    (∀ (rs : List GatherRes) (s f : Nat),
      (countResults rs s f).2 = f + rs.countP isFailRes ∧
        (countResults rs s f).1 + (countResults rs s f).2 = s + f + rs.length) := by
  constructor
  · intro out st
    constructor
    · show (sendSingleGo out (fun _ => true) (2 + 1) st).2.1 = false
      rw [sendSingleGo_succ]
      by_cases hfl : st.flood > st.clock <;> simp [hfl]
    · show numAttempts (sendSingleGo out (fun _ => true) (2 + 1) st).1 = 0
      rw [sendSingleGo_succ]
      by_cases hfl : st.flood > st.clock <;> simp [hfl, numAttempts, isAttemptEv]
  · intro rs s f
    exact ⟨countResults_failed rs s f, countResults_sum rs s f⟩

/-- Where one `send_single` coroutine stands, between the suspension points
of its loop: about to do the cooldown check (`atCheck a` = top of iteration
for attempt `a`), sleeping off a cooldown it observed
(`coolSleep deadline a` — after the sleep it proceeds straight to the
cancel check and the delivery, without re-reading `flood_wait_until`),
awaiting `_deliver_message` (`atDeliver a`), sleeping the post-throttle
`retry_after + 1` (`floodSleep deadline a`, `a` = next attempt index),
sleeping the generic-error backoff (`backSleep deadline a`), or returned
(`doneWith r`). -/
inductive Phase where
  | atCheck (a : Nat)
  | coolSleep (d : ℚ) (a : Nat)
  | atDeliver (a : Nat)
  | floodSleep (d : ℚ) (a : Nat)
  | backSleep (d : ℚ) (a : Nat)
  | doneWith (r : Bool)
deriving DecidableEq, Repr

/-- Shared state of one batch of concurrently gathered `send_single`
coroutines: the event-loop clock, the shared `flood_wait_until`, the
cancellation flag, and each sender's phase. -/
structure GState where
  clock : ℚ
  flood : ℚ
  cancelled : Bool
  phases : Nat → Phase

/-- Scheduler events: time advancing, sender `i` running its cooldown
check, a sleeping sender waking (only once the clock reaches its
deadline), sender `i`'s in-flight delivery resolving, and the cancel flag
being set. -/
inductive MEv where
  | tick (d : ℚ)
  | check (i : Nat)
  | wakeUp (i : Nat)
  | resolve (i : Nat)
  | setCancel
deriving DecidableEq, Repr

/-- Pointwise update of the phase map. -/
def setPhase (ps : Nat → Phase) (i : Nat) (p : Phase) : Nat → Phase :=
  fun x => if x = i then p else ps x

/-- One scheduler step of the gathered batch.  Each transition is one
atomic (await-free) segment of `send_single`, with `script i a` the
transport's behaviour for sender `i`'s attempt `a`:

* `check i`: reads `now`, compares `flood_wait_until`; sleeps until the
  observed value if still in cooldown, otherwise runs the cancel check and
  (if clear) calls `_deliver_message`;
* `wakeUp i`: a sleeper whose deadline has passed continues — a cooldown
  sleeper straight into the cancel check and delivery, a backoff sleeper
  into the next loop iteration, a throttle sleeper into the next iteration
  or (budget exhausted) `return False`;
* `resolve i`: the in-flight delivery returns or raises; `TelegramRetryAfter`
  records `flood_wait_until = now + retry_after + 1` and sleeps that long,
  a generic error backs off `0.5 * (attempt + 1)` (or fails out on the last
  attempt), forbidden/bad-request fail immediately. -/
def stepF (script : Nat → Nat → TgOutcome) (s : GState) (e : MEv) : Option GState :=
  match e with
  | .tick d => if 0 ≤ d then some { s with clock := s.clock + d } else none
  | .setCancel => some { s with cancelled := true }
  | .check i =>
    match s.phases i with
    | .atCheck a =>
      if s.flood > s.clock then
        some { s with phases := setPhase s.phases i (.coolSleep s.flood a) }
      else if s.cancelled then
        some { s with phases := setPhase s.phases i (.doneWith false) }
      else
        some { s with phases := setPhase s.phases i (.atDeliver a) }
    | _ => none
  | .wakeUp i =>
    match s.phases i with
    | .coolSleep d a =>
      if d ≤ s.clock then
        if s.cancelled then some { s with phases := setPhase s.phases i (.doneWith false) }
        else some { s with phases := setPhase s.phases i (.atDeliver a) }
      else none
    | .backSleep d a =>
      if d ≤ s.clock then some { s with phases := setPhase s.phases i (.atCheck a) }
      else none
    | .floodSleep d a =>
      if d ≤ s.clock then
        if a < tgMaxRetries then some { s with phases := setPhase s.phases i (.atCheck a) }
        else some { s with phases := setPhase s.phases i (.doneWith false) }
      else none
    | _ => none
  | .resolve i =>
    match s.phases i with
    | .atDeliver a =>
      match script i a with
      | .ok => some { s with phases := setPhase s.phases i (.doneWith true) }
      | .forbidden => some { s with phases := setPhase s.phases i (.doneWith false) }
      | .badRequest => some { s with phases := setPhase s.phases i (.doneWith false) }
      | .retryAfter w =>
        some { s with
               flood := s.clock + ((w : ℚ) + 1)
               phases := setPhase s.phases i (.floodSleep (s.clock + ((w : ℚ) + 1)) (a + 1)) }
      | .genericErr =>
        if a + 1 < tgMaxRetries then
          some { s with
                 phases := setPhase s.phases i (.backSleep (s.clock + ((a : ℚ) + 1) / 2) (a + 1)) }
        else some { s with phases := setPhase s.phases i (.doneWith false) }
    | _ => none

/-- The batch right after `asyncio.gather` launches the coroutines: clock 0,
no cooldown, no cancel, every sender at the top of attempt 0. -/
def initG : GState :=
  { clock := 0, flood := 0, cancelled := false, phases := fun _ => Phase.atCheck 0 }

/-- Run a list of scheduler events. -/
def runEvs (script : Nat → Nat → TgOutcome) : GState → List MEv → Option GState
  | s, [] => some s
  | s, e :: es =>
    match stepF script s e with
    | some s' => runEvs script s' es
    | none => none

/-- If event `k` of the run is a delivery resolving with
`TelegramRetryAfter w`, the resume-not-before timestamp it records
(`now + w + 1`); otherwise `none`. -/
def throttleRecordedAt (script : Nat → Nat → TgOutcome) (L : List MEv) (k : Nat) :
    Option ℚ :=
  match runEvs script initG (L.take k), L.get? k with
  | some s, some (MEv.resolve i) =>
    match s.phases i with
    | Phase.atDeliver a =>
      match script i a with
      | TgOutcome.retryAfter w => some (s.clock + ((w : ℚ) + 1))
      | _ => none
    | _ => none
  | _, _ => none

/-- If event `k` of the run starts a delivery attempt (a cooldown check that
passes, or a cooldown sleeper waking into its delivery), the clock at which
the attempt starts; otherwise `none`. -/
def attemptStartAt (script : Nat → Nat → TgOutcome) (L : List MEv) (k : Nat) :
    Option ℚ :=
  match runEvs script initG (L.take k), L.get? k with
  | some s, some (MEv.check i) =>
    match s.phases i with
    | Phase.atCheck _ =>
      if s.flood ≤ s.clock ∧ s.cancelled = false then some s.clock else none
    | _ => none
  | some s, some (MEv.wakeUp i) =>
    match s.phases i with
    | Phase.coolSleep d _ =>
      if d ≤ s.clock ∧ s.cancelled = false then some s.clock else none
    | _ => none
  | _, _ => none

/-- The claim exactly as stated: once a throttle records a resume-not-before
timestamp, no send of the batch starts an attempt at an earlier clock. -/
def C5AsStated : Prop :=
  ∀ (script : Nat → Nat → TgOutcome) (L : List MEv) (k₁ k₂ : Nat) (T t : ℚ),
    k₁ < k₂ → throttleRecordedAt script L k₁ = some T →
    attemptStartAt script L k₂ = some t → T ≤ t

/-- C5 amended: every sender re-reads the shared resume-not-before timestamp
at the start of each attempt and only proceeds to a delivery when the
cooldown it observes has elapsed, sleeping exactly until the observed
timestamp otherwise; a throttle records `now + retry_after + 1`; and the
throttled recipient itself is retried after the cooldown within the same
attempt budget, ending `sent` if the retry succeeds.  (A sender already
sleeping on an earlier-recorded timestamp may still start its attempt
before a timestamp recorded later — see the counterexample.) -/
theorem claim_C5_amended :
    (∀ (script : Nat → Nat → TgOutcome) (s : GState) (i : Nat) (s' : GState) (a : Nat),
      stepF script s (MEv.check i) = some s' → s'.phases i = Phase.atDeliver a →
      s.flood ≤ s.clock) ∧
    (∀ (script : Nat → Nat → TgOutcome) (s : GState) (i : Nat) (s' : GState) (a : Nat),
      s.phases i = Phase.atCheck a → s.flood > s.clock →
      stepF script s (MEv.check i) = some s' →
      s'.phases i = Phase.coolSleep s.flood a) ∧
    (∀ (script : Nat → Nat → TgOutcome) (s : GState) (i : Nat) (s' : GState) (a w : Nat),
      s.phases i = Phase.atDeliver a → script i a = TgOutcome.retryAfter w →
      stepF script s (MEv.resolve i) = some s' →
      s'.flood = s.clock + ((w : ℚ) + 1)) ∧
    (∀ out : Nat → TgOutcome, out 0 = TgOutcome.retryAfter 2 → out 1 = TgOutcome.ok →
      sendSingle out (fun _ => false) { clock := 0, flood := 0 } =
        ([SendEv.attempt 0, SendEv.floodSleep 3, SendEv.attempt 1], true,
          { clock := 3, flood := 3 })) := by
  refine ⟨?_, ?_, ?_, ?_⟩
  · intro script s i s' a h1 h2
    cases hp : s.phases i
    case atCheck a0 =>
      simp only [stepF, hp] at h1
      by_cases hfl : s.flood > s.clock
      · rw [if_pos hfl] at h1
        injection h1 with h1
        subst h1
        simp [setPhase] at h2
      · exact not_lt.mp hfl
    all_goals simp [stepF, hp] at h1
  · intro script s i s' a hp hfl h1
    simp only [stepF, hp, if_pos hfl] at h1
    injection h1 with h1
    subst h1
    simp [setPhase]
  · intro script s i s' a w hp hsc h1
    simp only [stepF, hp, hsc] at h1
    injection h1 with h1
    subst h1
    rfl
  · intro out h0 h1
    show sendSingleGo out (fun _ => false) (2 + 1) { clock := 0, flood := 0 } = _
    rw [sendSingleGo_succ]
    norm_num [tgMaxRetries, h0]
    rw [show (2 : Nat) = 1 + 1 from rfl, sendSingleGo_succ]
    norm_num [tgMaxRetries, h1]

/-- The transport behaviour in the counterexample run: all three senders are
throttled on their first attempt (`retry_after` 1, 5 and 20 seconds) and
would succeed afterwards. -/
def cexScript : Nat → Nat → TgOutcome := fun i a =>
  if a = 0 then
    (if i = 0 then TgOutcome.retryAfter 1
     else if i = 1 then TgOutcome.retryAfter 5
     else TgOutcome.retryAfter 20)
  else TgOutcome.ok

/-- The counterexample schedule: the three senders launch their deliveries
together; sender 0 is throttled 1 s (cooldown until 3) and sender 1 is
throttled 5 s (cooldown until 8); sender 0 wakes, sees cooldown 8 and
sleeps on it; sender 2's delivery then resolves with a 20 s throttle,
recording resume-not-before 25; sender 0 wakes at 8 and starts its second
attempt — before 25. -/
def cexL : List MEv :=
  [MEv.check 0, MEv.check 1, MEv.check 2, MEv.tick 1, MEv.resolve 0, MEv.tick 1,
   MEv.resolve 1, MEv.tick 1, MEv.wakeUp 0, MEv.check 0, MEv.tick 1, MEv.resolve 2,
   MEv.tick 4, MEv.wakeUp 0]

/-- C5 counterexample: the claim as stated is false — after the throttle at
event 11 records resume-not-before 25, the concurrent sender 0 (already
sleeping on the earlier timestamp 8 it observed at its cooldown check)
starts a delivery attempt at clock 8 < 25. -/
theorem claim_C5_counterexample : ¬ C5AsStated := by
  intro h
  have h1 : throttleRecordedAt cexScript cexL 11 = some 25 := by
    have ht : cexL.take 11 =
        [MEv.check 0, MEv.check 1, MEv.check 2, MEv.tick 1, MEv.resolve 0, MEv.tick 1,
         MEv.resolve 1, MEv.tick 1, MEv.wakeUp 0, MEv.check 0, MEv.tick 1] := rfl
    have hg : cexL.get? 11 = some (MEv.resolve 2) := rfl
    simp only [throttleRecordedAt, ht, hg]
    norm_num [runEvs, stepF, cexScript, setPhase, initG, tgMaxRetries]
  have h2 : attemptStartAt cexScript cexL 13 = some 8 := by
    have ht : cexL.take 13 =
        [MEv.check 0, MEv.check 1, MEv.check 2, MEv.tick 1, MEv.resolve 0, MEv.tick 1,
         MEv.resolve 1, MEv.tick 1, MEv.wakeUp 0, MEv.check 0, MEv.tick 1, MEv.resolve 2,
         MEv.tick 4] := rfl
    have hg : cexL.get? 13 = some (MEv.wakeUp 0) := rfl
    simp only [attemptStartAt, ht, hg]
    norm_num [runEvs, stepF, cexScript, setPhase, initG, tgMaxRetries]
  have := h cexScript cexL 11 13 25 8 (by norm_num) h1 h2
  norm_num at this

theorem sendBatchedAux_cons_eq (env : BatchEnv) (fuel j : Nat) (t : Nat) (ts : List Nat)
    (s f lastCnt : Nat) (lastT : ℚ) (row : StoreRow) :
    sendBatchedAux env (fuel + 1) j (t :: ts) s f lastCnt lastT row =
      (if env.cancelB j then
        let row' := markCancelled row s f
        ([row'], row', .cancelledAt s f)
      else
        let s' := (countResults ((t :: ts).take tgBatchSize |>.map env.resOf) s f).1
        let f' := (countResults ((t :: ts).take tgBatchSize |>.map env.resOf) s f).2
        let processed := s' + f'
        let now := env.batchNow j
        if processed - lastCnt ≥ progressUpdateMessages ∨
            now - lastT ≥ progressMinIntervalSec then
          match env.progressFail j with
          | .raise => ([], row, .raised s' f')
          | .skip =>
            sendBatchedAux env fuel (j + 1) ((t :: ts).drop tgBatchSize) s' f' processed now row
          | .ok =>
            let row' := updateProgress row s' f'
            let rest :=
              sendBatchedAux env fuel (j + 1) ((t :: ts).drop tgBatchSize) s' f' processed now
                row'
            (row' :: rest.1, rest.2)
        else
          sendBatchedAux env fuel (j + 1) ((t :: ts).drop tgBatchSize) s' f' lastCnt
            lastT row) := rfl

/-- The run exhibiting the lost-progress bug: 50 recipients in two batches,
every send succeeding, the progress write of batch 0 committing and the
progress write of batch 1 raising an error past `_safe_status_update`'s
handlers. -/
def cp6 : RunParams :=
  { initRow := freshRow
    recips := List.replicate 50 0
    cancel1 := false
    cancel2 := false
    fetchFails := false
    env :=
      { resOf := fun _ => GatherRes.sentOk
        cancelB := fun _ => false
        batchNow := fun j => 10 * ((j : ℚ) + 1)
        progressFail := fun k => if k = 1 then PFail.raise else PFail.ok } }

/-- C6, evaluated at the failing input: after batch 0 the store holds
`in_progress` with `sent = 25`, and batch 1 is fully delivered
(`sent = 50` in the loop) before its progress write raises; the terminal
write is `failed` with `sent = 0, failed = 0` — the exception handler of
`_run_broadcast` only sees its own local counters, still zero, so the
already-persisted progress is overwritten and lost. -/
theorem claim_C6_eval :
    runTrace cp6 =
      [{ status := BStatus.queued, totalCount := 0, sentCount := 0, failedCount := 0,
         completedAtSet := false },
       { status := BStatus.inProgress, totalCount := 0, sentCount := 0, failedCount := 0,
         completedAtSet := false },
       { status := BStatus.inProgress, totalCount := 50, sentCount := 0, failedCount := 0,
         completedAtSet := false },
       { status := BStatus.inProgress, totalCount := 50, sentCount := 25, failedCount := 0,
         completedAtSet := false },
       { status := BStatus.failed, totalCount := 50, sentCount := 0, failedCount := 0,
         completedAtSet := true }] := by
  have hc1 : countResults (((0 : Nat) :: List.replicate 49 0).take tgBatchSize |>.map
      cp6.env.resOf) 0 0 = (25, 0) := rfl
  have hc2 : countResults (((0 : Nat) :: List.replicate 24 0).take tgBatchSize |>.map
      cp6.env.resOf) 25 0 = (50, 0) := rfl
  have hcB : ∀ j, cp6.env.cancelB j = false := fun _ => rfl
  have hpf1 : cp6.env.progressFail 1 = PFail.raise := rfl
  have hpf0 : cp6.env.progressFail 0 = PFail.ok := rfl
  have hbn0 : cp6.env.batchNow 0 = 10 := by
    show (10 : ℚ) * ((0 : Nat) + 1) = 10
    norm_num
  have hbn1 : cp6.env.batchNow 1 = 20 := by
    show (10 : ℚ) * ((1 : Nat) + 1) = 20
    norm_num
  have hstep2 : ∀ row : StoreRow,
      sendBatchedAux cp6.env 49 1 ((0 : Nat) :: List.replicate 24 0) 25 0 25 10 row =
        ([], row, BOut.raised 50 0) := by
    intro row
    rw [show (49 : Nat) = 48 + 1 from rfl, sendBatchedAux_cons_eq]
    rw [hc2]
    simp only [hcB, Bool.false_eq_true, if_false, ite_false, hbn1, hpf1]
    rw [if_pos (Or.inr (by norm_num [progressMinIntervalSec] :
      (20 : ℚ) - 10 ≥ progressMinIntervalSec))]
  have hstep1 : ∀ row : StoreRow,
      sendBatchedAux cp6.env 50 0 (List.replicate 50 (0 : Nat)) 0 0 0 0 row =
        ([updateProgress row 25 0], updateProgress row 25 0, BOut.raised 50 0) := by
    intro row
    rw [show List.replicate 50 (0 : Nat) = 0 :: List.replicate 49 0 from rfl,
        show (50 : Nat) = 49 + 1 from rfl, sendBatchedAux_cons_eq]
    rw [hc1]
    simp only [hcB, Bool.false_eq_true, if_false, ite_false, hbn0, hpf0]
    rw [if_pos (Or.inr (by norm_num [progressMinIntervalSec] :
      (10 : ℚ) - 0 ≥ progressMinIntervalSec))]
    rw [show ((0 : Nat) :: List.replicate 49 0).drop tgBatchSize =
        (0 : Nat) :: List.replicate 24 0 from rfl]
    rw [show (25, 0).1 + (25, 0).2 = 25 from rfl]
    rw [hstep2]
  unfold runTrace runBroadcast
  simp only [show cp6.cancel1 = false from rfl, show cp6.fetchFails = false from rfl,
    show cp6.cancel2 = false from rfl, show cp6.recips = List.replicate 50 (0 : Nat) from rfl,
    Bool.false_eq_true, if_false, ite_false,
    show (List.replicate 50 (0 : Nat)).length = 50 from rfl]
  rw [if_neg (by norm_num : ¬(50 : Nat) = 0)]
  rw [hstep1]
  simp [show cp6.initRow = freshRow from rfl, freshRow, updateProgress, markFailed,
    safeStatusUpdate]

/-- A small healthy run: three recipients, every send succeeding. -/
def cp1 : RunParams :=
  { initRow := freshRow
    recips := [1, 2, 3]
    cancel1 := false
    cancel2 := false
    fetchFails := false
    env :=
      { resOf := fun _ => GatherRes.sentOk
        cancelB := fun _ => false
        batchNow := fun _ => 10
        progressFail := fun _ => PFail.ok } }

theorem claim_C1_witness :
    cp1.initRow.sentCount = 0 ∧ cp1.initRow.failedCount = 0 ∧
      ∀ r ∈ runTrace cp1,
        r.sentCount + r.failedCount ≤ r.totalCount ∧
          r.sentCount + r.failedCount ≤ cp1.recips.length :=
  ⟨rfl, rfl, claim_C1 cp1 rfl rfl⟩

/-- Scenario E: 1000 recipients, the stop observed at the top of batch 2. -/
def cp2 : RunParams :=
  { initRow := freshRow
    recips := List.range 1000
    cancel1 := false
    cancel2 := false
    fetchFails := false
    env :=
      { resOf := fun _ => GatherRes.sentOk
        cancelB := fun j => decide (2 ≤ j)
        batchNow := fun _ => 10
        progressFail := fun _ => PFail.ok } }

/-- A run whose cancel flag is already set when the task first runs. -/
def cpA : RunParams :=
  { cp1 with cancel1 := true }

/-- A run cancelled at the checkpoint right after the snapshot was taken. -/
def cpB : RunParams :=
  { cp1 with cancel2 := true }

theorem claim_C2_witness :
    ((finalRow cpA).status = BStatus.cancelled ∧ (finalRow cpA).sentCount = 0 ∧
      (finalRow cpA).failedCount = 0) ∧
    ((finalRow cpB).status = BStatus.cancelled ∧ (finalRow cpB).sentCount = 0 ∧
      (finalRow cpB).failedCount = 0 ∧ (finalRow cpB).totalCount = cpB.recips.length) ∧
    ((finalRow cp2).status = BStatus.cancelled ∧
      (finalRow cp2).sentCount + (finalRow cp2).failedCount = tgBatchSize * 2 ∧
      (finalRow cp2).totalCount = cp2.recips.length) :=
  ⟨(claim_C2 cpA).1 rfl,
   (claim_C2 cpB).2.1 rfl rfl rfl,
   (claim_C2 cp2).2.2 2 rfl rfl rfl (fun _ h => PFail.noConfusion h)
     (fun m hm => decide_eq_false (by omega))
     rfl
     (by have h : cp2.recips.length = 1000 := by simp [cp2]
         rw [h]; norm_num [tgBatchSize])⟩

theorem claim_C3_witness :
    cp1.cancel1 = false ∧ cp1.fetchFails = false ∧ cp1.cancel2 = false ∧
      ((finalRow cp1).status =
          (if (finalRow cp1).failedCount = 0 then BStatus.completed else BStatus.partialDone) ∧
        (finalRow cp1).sentCount + (finalRow cp1).failedCount = cp1.recips.length ∧
        (finalRow cp1).totalCount = cp1.recips.length ∧
        (cp1.recips = [] →
          (finalRow cp1).status = BStatus.completed ∧ (finalRow cp1).totalCount = 0 ∧
            (finalRow cp1).sentCount = 0 ∧ (finalRow cp1).failedCount = 0)) :=
  ⟨rfl, rfl, rfl,
   claim_C3 cp1 rfl rfl rfl (fun _ => rfl) (fun _ h => PFail.noConfusion h)⟩

theorem claim_C4_witness :
    sendSingle (fun _ => TgOutcome.forbidden) (fun _ => false) { clock := 0, flood := 0 } =
        ([SendEv.attempt 0], false, { clock := 0, flood := 0 }) ∧
      sendSingle (fun _ => TgOutcome.badRequest) (fun _ => false) { clock := 0, flood := 0 } =
        ([SendEv.attempt 0], false, { clock := 0, flood := 0 }) :=
  ⟨claim_C4.2.2.1 _ _ _ rfl rfl le_rfl,
   claim_C4.2.2.2.1 _ _ _ rfl rfl le_rfl⟩

theorem claim_C5_amended_witness :
    initG.flood ≤ initG.clock ∧
      sendSingle (fun a => if a = 0 then TgOutcome.retryAfter 2 else TgOutcome.ok)
        (fun _ => false) { clock := 0, flood := 0 } =
        ([SendEv.attempt 0, SendEv.floodSleep 3, SendEv.attempt 1], true,
          { clock := 3, flood := 3 }) :=
  ⟨claim_C5_amended.1 cexScript initG 0
      { initG with phases := setPhase initG.phases 0 (Phase.atDeliver 0) } 0
      (by simp [stepF, initG, setPhase])
      (by simp [setPhase]),
   claim_C5_amended.2.2.2 _ rfl rfl⟩

/-- A registry holding one live task, for job id 7. -/
def regOne : Registry := fun x => if x = 7 then some false else none

theorem claim_C7_witness :
    isRunningReg regOne 7 = true ∧
      startBroadcastM true regOne freshRow 7 = (regOne, freshRow, StartAction.noop) ∧
      (∀ o : TaskOutcome, isRunningReg (finishTask regOne 7 o) 7 = false) ∧
      (∀ (reg' : Registry) (row' : StoreRow) (bid' : Nat),
        (startBroadcastM true reg' row' bid').2.2 = StartAction.spawned →
        isRunningReg (startBroadcastM true reg' row' bid').1 bid' = true) :=
  ⟨rfl,
   (claim_C7 regOne 7 freshRow rfl).1,
   (claim_C7 regOne 7 freshRow rfl).2.1,
   (claim_C7 regOne 7 freshRow rfl).2.2⟩

theorem claim_C8_amended_witness :
    (∀ r ∈ runTrace cp1, r.status ≠ BStatus.cancelling) ∧
      stopBroadcastRoute
          (some { status := BStatus.inProgress, totalCount := 10, sentCount := 3,
                  failedCount := 1, completedAtSet := false }) true =
        StopOutcome.updated
          { status := BStatus.cancelling, totalCount := 10, sentCount := 3,
            failedCount := 1, completedAtSet := false } :=
  ⟨(claim_C8_amended cp1 rfl).1, (claim_C8_amended cp1 rfl).2 _ rfl⟩

theorem claim_C9_witness :
    ((startBroadcastM false emptyRegistry freshRow 7).1 = emptyRegistry ∧
      (startBroadcastM false emptyRegistry freshRow 7).2.1.status = BStatus.failed ∧
      (startBroadcastM false emptyRegistry freshRow 7).2.1.sentCount = 0 ∧
      (startBroadcastM false emptyRegistry freshRow 7).2.1.failedCount = 0 ∧
      (startBroadcastM false emptyRegistry freshRow 7).2.2 = StartAction.markedFailed ∧
      isRunningReg (startBroadcastM false emptyRegistry freshRow 7).1 7 =
        isRunningReg emptyRegistry 7) ∧
    ((startEmailBroadcastM false true emptyRegistry freshRow 7).1 = emptyRegistry ∧
      (startEmailBroadcastM false true emptyRegistry freshRow 7).2.1.status = BStatus.failed ∧
      (startEmailBroadcastM false true emptyRegistry freshRow 7).2.1.sentCount = 0 ∧
      (startEmailBroadcastM false true emptyRegistry freshRow 7).2.1.failedCount = 0 ∧
      isRunningReg (startEmailBroadcastM false true emptyRegistry freshRow 7).1 7 =
        isRunningReg emptyRegistry 7) :=
  ⟨(claim_C9 emptyRegistry freshRow 7).1,
   (claim_C9 emptyRegistry freshRow 7).2 false true (Or.inl rfl)⟩

end Broadcast
